import Mathlib

/-!
Shallow embedding of `src/SoftwareSerial.cpp` (multi-instance software serial
library) and proofs about it.  Machine integers are modelled as `Nat`/`Int`
with explicit wrapping where the source relies on it; the `int32_t` tick and
bit counters never approach their bounds in any behaviour considered here, so
they are embedded as `Int`.
-/

set_option maxRecDepth 100000

namespace SoftwareSerial

/-- `#define OVERSAMPLE 3` (SoftwareSerial.cpp, line 59), as an `Int` because it
is only combined with the `int32_t` tick/bit counters. -/
def OVERSAMPLE : Int := 3

/-- `#define FORCE_BAUD_RATE 19200` (SoftwareSerial.cpp, line 57).  Because this
macro is defined, `begin()` overwrites its `speed` argument with this value. -/
def FORCE_BAUD_RATE : Nat := 19200

/-- Modelled from the spec: the ring-buffer capacity `_SS_MAX_RX_BUFF` is
declared in `SoftwareSerial.h`, which is not among the sources; the spec only
fixes it as a build-time constant `≥ 2`.  We use the conventional value 64. -/
def _SS_MAX_RX_BUFF : Nat := 64

/-- The per-instance receive ring buffer: the fields `_receive_buffer`,
`_receive_buffer_head`, `_receive_buffer_tail` and `_buffer_overflow` of class
`SoftwareSerial`.  The byte array is a list of fixed length
`_SS_MAX_RX_BUFF`; bytes are `Nat` values `< 256`. -/
structure RxRing where
  _receive_buffer : List Nat
  _receive_buffer_head : Nat
  _receive_buffer_tail : Nat
  _buffer_overflow : Bool
deriving DecidableEq, Repr

/-- `SoftwareSerial::available()` (lines 387-389):
`(_receive_buffer_tail + _SS_MAX_RX_BUFF - _receive_buffer_head) % _SS_MAX_RX_BUFF`. -/
def available (s : RxRing) : Nat :=
  (s._receive_buffer_tail + _SS_MAX_RX_BUFF - s._receive_buffer_head) % _SS_MAX_RX_BUFF

/-- `SoftwareSerial::read()` (lines 375-385).  Returns the value (`-1` on an
empty buffer) together with the updated ring state. -/
def read (s : RxRing) : Int × RxRing :=
  if s._receive_buffer_head = s._receive_buffer_tail then (-1, s)
  else
    let d := s._receive_buffer.getD s._receive_buffer_head 0
    ((d : Int),
      { s with _receive_buffer_head := (s._receive_buffer_head + 1) % _SS_MAX_RX_BUFF })

/-- `SoftwareSerial::peek()` (lines 414-421).  Returns a value only; the state
is not touched. -/
def peek (s : RxRing) : Int :=
  if s._receive_buffer_head = s._receive_buffer_tail then -1
  else (s._receive_buffer.getD s._receive_buffer_head 0 : Int)

/-- The ring-buffer effect of `SoftwareSerial::flush()` (lines 408-412):
`_receive_buffer_head = _receive_buffer_tail = 0` (the `cli()`/`sei()`
interrupt masking around the reset has no counterpart in this sequential
embedding). -/
def flushRing (s : RxRing) : RxRing :=
  { s with _receive_buffer_head := 0, _receive_buffer_tail := 0 }

/-- The commit step of `SoftwareSerial::recv()` (lines 274-282): compute the
incremented tail; if it differs from the head store the byte at the old tail
and advance the tail, otherwise set the sticky overflow flag and drop the
byte. -/
def rbPut (s : RxRing) (b : Nat) : RxRing :=
  let next := (s._receive_buffer_tail + 1) % _SS_MAX_RX_BUFF
  if next ≠ s._receive_buffer_head then
    { s with
      _receive_buffer := s._receive_buffer.set s._receive_buffer_tail b,
      _receive_buffer_tail := next }
  else
    { s with _buffer_overflow := true }

/-- The static receive engine state of the class: `rx_tick_cnt` (line 101),
`rx_bit_cnt` (line 105) and `rx_buffer` (line 104). -/
structure RxEngine where
  rx_tick_cnt : Int
  rx_bit_cnt : Int
  rx_buffer : Nat
deriving DecidableEq, Repr

/-- `SoftwareSerial::recv()` (lines 257-296).  `inbit` is the sampled level of
the receive pin (`gpio_get(_receivePin)`).  The pre-decrement
`--rx_tick_cnt <= 0` is mirrored by comparing `rx_tick_cnt - 1 ≤ 0`; on every
path through the taken branch the counter is reassigned, and on the skipped
branch only the decrement remains. -/
def recv (e : RxEngine) (inbit : Bool) (s : RxRing) : RxEngine × RxRing :=
  if e.rx_tick_cnt - 1 ≤ 0 then
    if e.rx_bit_cnt = -1 then
      if !inbit then
        ({ rx_bit_cnt := 0, rx_tick_cnt := OVERSAMPLE + 1, rx_buffer := 0 }, s)
      else
        ({ e with rx_tick_cnt := 1 }, s)
    else if e.rx_bit_cnt ≥ 8 then
      ({ e with rx_tick_cnt := 1, rx_bit_cnt := -1 },
        if inbit then rbPut s e.rx_buffer else s)
    else
      let rb := e.rx_buffer >>> 1
      let rb := if inbit then rb ||| 0x80 else rb
      ({ rx_buffer := rb, rx_bit_cnt := e.rx_bit_cnt + 1, rx_tick_cnt := OVERSAMPLE }, s)
  else
    ({ e with rx_tick_cnt := e.rx_tick_cnt - 1 }, s)

/-- The unread bytes of a ring state, oldest first: byte `i` of the result sits
at index `(head + i) % capacity`, and there are `available` of them.  This is
the semantic reading of the head/tail discipline, used to relate
`available`/`read` to what the interrupt path stored. -/
def contents (s : RxRing) : List Nat :=
  (List.range (available s)).map
    (fun i => s._receive_buffer.getD ((s._receive_buffer_head + i) % _SS_MAX_RX_BUFF) 0)

/-- Drain `n` bytes by repeated `read()`, collecting the returned values. -/
def readAllGo : Nat → RxRing → List Int
  | 0, _ => []
  | n + 1, s =>
    let p := read s
    p.1 :: readAllGo n p.2

/-- Drain the whole buffer by calling `read()` once per unread byte
(`available` many times), collecting the returned values. -/
def readAll (s : RxRing) : List Int :=
  readAllGo (available s) s

/-- Well-formedness of a ring state: the array has the build-time length and
both indices are in range. -/
def WF (s : RxRing) : Prop :=
  s._receive_buffer.length = _SS_MAX_RX_BUFF ∧
    s._receive_buffer_head < _SS_MAX_RX_BUFF ∧
    s._receive_buffer_tail < _SS_MAX_RX_BUFF

instance (s : RxRing) : Decidable (WF s) := by unfold WF; infer_instance

/-- Freshly constructed ring state (constructor, lines 318-328: head and tail
start at 0, the overflow flag clear; the byte array contents are
uninitialized, here all zero). -/
def initRing : RxRing :=
  { _receive_buffer := List.replicate _SS_MAX_RX_BUFF 0,
    _receive_buffer_head := 0,
    _receive_buffer_tail := 0,
    _buffer_overflow := false }

/-- The static transmit engine state of the class: `tx_tick_cnt` (line 100),
`tx_bit_cnt` (line 103) and `tx_buffer` (line 102). -/
structure TxEngine where
  tx_tick_cnt : Int
  tx_bit_cnt : Int
  tx_buffer : Nat
deriving DecidableEq, Repr

/-- State of a loopback configuration: one full-duplex `SoftwareSerial`
instance whose transmit pin is externally wired to its receive pin, together
with the class statics it uses.  `line` is the level currently driven on the
transmit pin (`gpio_set(_transmitPin, ·)`); the loopback wiring makes
`gpio_get(_receivePin)` return exactly `line`.  The Boolean `active_out`,
`active_in` and `active_listener` fields state whether the corresponding
static pointer equals this instance. -/
structure Loopback where
  line : Bool
  tx : TxEngine
  rx : RxEngine
  ring : RxRing
  active_out : Bool
  active_in : Bool
  active_listener : Bool
  _output_pending : Bool
  _half_duplex : Bool
  _inverse_logic : Bool
  _speed : Nat
  cur_speed : Nat
deriving DecidableEq, Repr

/-- `SoftwareSerial::send()` (lines 227-252) on the loopback state.  The
post-increment `tx_bit_cnt++ < 10` compares the old value and increments on
both outcomes.  In the half-duplex turnaround branch the receive pin is also
reconfigured as an input (`pinMode`), which has no observable counterpart
beyond `line` in this state. -/
def send (s : Loopback) : Loopback :=
  if s.tx.tx_tick_cnt - 1 ≤ 0 then
    if s.tx.tx_bit_cnt < 10 then
      { s with
        line := s.tx.tx_buffer &&& 1 != 0,
        tx := { tx_tick_cnt := OVERSAMPLE, tx_bit_cnt := s.tx.tx_bit_cnt + 1,
                tx_buffer := s.tx.tx_buffer >>> 1 } }
    else
      let tbc := s.tx.tx_bit_cnt + 1
      if s._output_pending then
        { s with tx := { s.tx with tx_tick_cnt := 1, tx_bit_cnt := tbc },
                 active_out := false }
      else if tbc > 10 + OVERSAMPLE * 5 then
        if s._half_duplex && s.active_listener then
          { s with
            tx := { s.tx with tx_tick_cnt := 1, tx_bit_cnt := tbc },
            rx := { s.rx with rx_bit_cnt := -1, rx_tick_cnt := 2 },
            active_in := true, active_out := false }
        else
          { s with tx := { s.tx with tx_tick_cnt := 1, tx_bit_cnt := tbc },
                   active_out := false }
      else
        { s with tx := { s.tx with tx_tick_cnt := 1, tx_bit_cnt := tbc } }
  else
    { s with tx := { s.tx with tx_tick_cnt := s.tx.tx_tick_cnt - 1 } }

/-- `recv()` on the loopback state: the sampled input is the looped-back
`line`. -/
def recvL (s : Loopback) : Loopback :=
  let p := recv s.rx s.line s.ring
  { s with rx := p.1, ring := p.2 }

/-- `SoftwareSerial::handle_interrupt()` (lines 303-306): on each tick the
active receiver's `recv()` runs, then the active transmitter's `send()`. -/
def handle_interrupt (s : Loopback) : Loopback :=
  let s1 := if s.active_in then recvL s else s
  if s1.active_out then send s1 else s1

/-- The observable effect of `setSpeed(speed)` (lines 112-149) on `cur_speed`:
updated only when the requested speed differs; the timer programming itself is
platform code outside the core. -/
def setSpeedVal (speed cur : Nat) : Nat :=
  if speed ≠ cur then speed else cur

/-- `setRXTX(false)` (lines 206-224) on the loopback state: only acts on a
half-duplex instance that is the active receiver, driving the shared pin back
to transmit direction (`setTX()`, so the line goes to the idle level) and
clearing `active_in`. -/
def setRXTXFalseL (s : Loopback) : Loopback :=
  if s._half_duplex then
    if s.active_in then
      { s with line := !s._inverse_logic, active_in := false }
    else s
  else s

/-- `SoftwareSerial::write` (lines 391-406) on the loopback state, modelled at
the point where the `_output_pending = 1; while (active_out);` spin has
completed (so for callers observing `active_out` clear): the framed word
`b << 1 | 0x200` is loaded, the counters armed, the speed reasserted, the
half-duplex direction forced, `_output_pending` cleared and the instance made
the active transmitter. -/
def write (b : Nat) (s : Loopback) : Loopback :=
  let s1 := { s with
    tx := { tx_buffer := (b <<< 1) ||| 0x200, tx_bit_cnt := 0, tx_tick_cnt := OVERSAMPLE },
    cur_speed := setSpeedVal s._speed s.cur_speed }
  let s2 := if s1._half_duplex then setRXTXFalseL s1 else s1
  { s2 with _output_pending := false, active_out := true }

/-- Iterated timer ticks on the loopback state. -/
def runL : Nat → Loopback → Loopback
  | 0, s => s
  | n + 1, s => runL n (handle_interrupt s)

/-- One frame's tick budget at `OVERSAMPLE = 3`: 3 ticks to the start bit,
30 ticks of framed bits, and the transmitter's hold interval; after 48 ticks
from a `write` on an idle line the byte is committed and `active_out` is
released again. -/
def FRAME_TICKS : Nat := 48

/-- Write each byte in turn, giving the engine one full frame budget of ticks
after each `write`. -/
def writeFrames (bs : List Nat) (s : Loopback) : Loopback :=
  bs.foldl (fun s b => runL FRAME_TICKS (write b s)) s

/-- The loopback state right after `begin()`/`listen()` on a freshly
constructed full-duplex instance with normal logic: the transmit pin drives
the idle (high) level, the statics have their initializers (lines 96-106)
except that `listen()` set `rx_tick_cnt = 1`, `rx_bit_cnt = -1` and the forced
speed, and the instance is both active listener and active receiver. -/
def initLoopback : Loopback :=
  { line := true,
    tx := { tx_tick_cnt := 0, tx_bit_cnt := 0, tx_buffer := 0 },
    rx := { rx_tick_cnt := 1, rx_bit_cnt := -1, rx_buffer := 0 },
    ring := initRing,
    active_out := false, active_in := true, active_listener := true,
    _output_pending := false, _half_duplex := false, _inverse_logic := false,
    _speed := FORCE_BAUD_RATE, cur_speed := FORCE_BAUD_RATE }

/-- Proof artifact: `recv()` with the ring buffer factored out; the committed
byte, if any, is returned instead of stored.  `recv_recvT` proves that `recv`
is this step followed by `rbPut`. -/
def recvT (e : RxEngine) (inbit : Bool) : RxEngine × Option Nat :=
  if e.rx_tick_cnt - 1 ≤ 0 then
    if e.rx_bit_cnt = -1 then
      if !inbit then
        ({ rx_bit_cnt := 0, rx_tick_cnt := OVERSAMPLE + 1, rx_buffer := 0 }, none)
      else
        ({ e with rx_tick_cnt := 1 }, none)
    else if e.rx_bit_cnt ≥ 8 then
      ({ e with rx_tick_cnt := 1, rx_bit_cnt := -1 },
        if inbit then some e.rx_buffer else none)
    else
      let rb := e.rx_buffer >>> 1
      let rb := if inbit then rb ||| 0x80 else rb
      ({ rx_buffer := rb, rx_bit_cnt := e.rx_bit_cnt + 1, rx_tick_cnt := OVERSAMPLE }, none)
  else
    ({ e with rx_tick_cnt := e.rx_tick_cnt - 1 }, none)

/-- Proof artifact: the loopback state without its ring buffer. -/
structure LoopEng where
  line : Bool
  tx : TxEngine
  rx : RxEngine
  active_out : Bool
  active_in : Bool
  active_listener : Bool
  _output_pending : Bool
  _half_duplex : Bool
  _inverse_logic : Bool
  _speed : Nat
  cur_speed : Nat
deriving DecidableEq, Repr

/-- Forget the ring buffer of a loopback state. -/
def toEng (s : Loopback) : LoopEng :=
  { line := s.line, tx := s.tx, rx := s.rx, active_out := s.active_out,
    active_in := s.active_in, active_listener := s.active_listener,
    _output_pending := s._output_pending, _half_duplex := s._half_duplex,
    _inverse_logic := s._inverse_logic, _speed := s._speed,
    cur_speed := s.cur_speed }

/-- Reattach a ring buffer to an engine state. -/
def withRing (e : LoopEng) (r : RxRing) : Loopback :=
  { line := e.line, tx := e.tx, rx := e.rx, ring := r,
    active_out := e.active_out, active_in := e.active_in,
    active_listener := e.active_listener, _output_pending := e._output_pending,
    _half_duplex := e._half_duplex, _inverse_logic := e._inverse_logic,
    _speed := e._speed, cur_speed := e.cur_speed }

/-- `send()` on the ring-free state (same body as `send`). -/
def sendE (s : LoopEng) : LoopEng :=
  if s.tx.tx_tick_cnt - 1 ≤ 0 then
    if s.tx.tx_bit_cnt < 10 then
      { s with
        line := s.tx.tx_buffer &&& 1 != 0,
        tx := { tx_tick_cnt := OVERSAMPLE, tx_bit_cnt := s.tx.tx_bit_cnt + 1,
                tx_buffer := s.tx.tx_buffer >>> 1 } }
    else
      let tbc := s.tx.tx_bit_cnt + 1
      if s._output_pending then
        { s with tx := { s.tx with tx_tick_cnt := 1, tx_bit_cnt := tbc },
                 active_out := false }
      else if tbc > 10 + OVERSAMPLE * 5 then
        if s._half_duplex && s.active_listener then
          { s with
            tx := { s.tx with tx_tick_cnt := 1, tx_bit_cnt := tbc },
            rx := { s.rx with rx_bit_cnt := -1, rx_tick_cnt := 2 },
            active_in := true, active_out := false }
        else
          { s with tx := { s.tx with tx_tick_cnt := 1, tx_bit_cnt := tbc },
                   active_out := false }
      else
        { s with tx := { s.tx with tx_tick_cnt := 1, tx_bit_cnt := tbc } }
  else
    { s with tx := { s.tx with tx_tick_cnt := s.tx.tx_tick_cnt - 1 } }

/-- `handle_interrupt()` on the ring-free state, reporting the committed byte. -/
def stepE (s : LoopEng) : LoopEng × Option Nat :=
  let p :=
    if s.active_in then
      let q := recvT s.rx s.line
      ({ s with rx := q.1 }, q.2)
    else (s, none)
  (if p.1.active_out then sendE p.1 else p.1, p.2)

/-- Iterated ticks on the ring-free state, collecting committed bytes. -/
def runE : Nat → LoopEng → LoopEng × List Nat
  | 0, s => (s, [])
  | n + 1, s =>
    let p := stepE s
    let q := runE n p.1
    (q.1, p.2.toList ++ q.2)

/-- The ring-free loopback engine idle between frames: line high, reception
waiting for a start bit, no active transmitter; the transmit scratch fields
and the last received byte are arbitrary. -/
def idleEng (t : TxEngine) (r : Nat) : LoopEng :=
  { line := true, tx := t,
    rx := { rx_tick_cnt := 1, rx_bit_cnt := -1, rx_buffer := r },
    active_out := false, active_in := true, active_listener := true,
    _output_pending := false, _half_duplex := false, _inverse_logic := false,
    _speed := FORCE_BAUD_RATE, cur_speed := FORCE_BAUD_RATE }

/-- `write` on the ring-free state (same body as `write`). -/
def writeE (b : Nat) (s : LoopEng) : LoopEng :=
  let s1 := { s with
    tx := { tx_buffer := (b <<< 1) ||| 0x200, tx_bit_cnt := 0, tx_tick_cnt := OVERSAMPLE },
    cur_speed := setSpeedVal s._speed s.cur_speed }
  let s2 := if s1._half_duplex then
      (if s1.active_in then { s1 with line := !s1._inverse_logic, active_in := false }
       else s1)
    else s1
  { s2 with _output_pending := false, active_out := true }

/-- The ring-free loopback engine four ticks after a `write b` from idle: the
start bit is on the line and was just detected, the first data bit is two
ticks from being driven. -/
def midFrameEng (b : Nat) : LoopEng :=
  { line := false,
    tx := { tx_tick_cnt := 2, tx_bit_cnt := 1, tx_buffer := b + 256 },
    rx := { rx_tick_cnt := 4, rx_bit_cnt := 0, rx_buffer := 0 },
    active_out := true, active_in := true, active_listener := true,
    _output_pending := false, _half_duplex := false, _inverse_logic := false,
    _speed := FORCE_BAUD_RATE, cur_speed := FORCE_BAUD_RATE }

/-- Per-instance fields of class `SoftwareSerial` (constructor, lines
318-328) together with a small model of the pin configuration the instance
last applied: `setTX()` (lines 190-198) drives the transmit pin to the idle
level and makes it an output; `setRX()` (lines 200-204) configures the
receive pin as an input with the polarity-dependent pull. -/
structure Instance where
  _receivePin : Int
  _transmitPin : Int
  _speed : Nat
  _inverse_logic : Bool
  _half_duplex : Bool
  _output_pending : Bool
  ring : RxRing
  txPinOutput : Bool
  txPinLevel : Bool
  rxPinConfigured : Bool
deriving DecidableEq, Repr

/-- Constructor `SoftwareSerial::SoftwareSerial` (lines 318-328): stores the
pins and polarity, sets `_half_duplex = (receivePin == transmitPin)`,
`_speed = 0`, clears `_output_pending`, the overflow flag and both ring
indices.  The ring array contents and the pin hardware state are left
uninitialized by the constructor, hence parameters. -/
def mkInstance (receivePin transmitPin : Int) (inverse_logic : Bool)
    (buf : List Nat) (txOut txLvl rxCfg : Bool) : Instance :=
  { _receivePin := receivePin, _transmitPin := transmitPin, _speed := 0,
    _inverse_logic := inverse_logic,
    _half_duplex := receivePin == transmitPin,
    _output_pending := false,
    ring := { _receive_buffer := buf, _receive_buffer_head := 0,
              _receive_buffer_tail := 0, _buffer_overflow := false },
    txPinOutput := txOut, txPinLevel := txLvl, rxPinConfigured := rxCfg }

/-- The static (class-level) state, lines 96-106: `initialised`, the three
active-instance pointers (instances are identified here by `Nat` ids), the
shared transmit and receive scratch engines, and `cur_speed`. -/
structure Shared where
  initialised : Bool
  active_listener : Option Nat
  active_out : Option Nat
  active_in : Option Nat
  txe : TxEngine
  rxe : RxEngine
  cur_speed : Nat
deriving DecidableEq, Repr

/-- `SoftwareSerial::setSpeed` (lines 112-149) on the shared state: the timer
programming is platform code outside the core; the observable effect is
`cur_speed`, updated only when the requested speed differs. -/
def setSpeed (speed : Nat) (sh : Shared) : Shared :=
  if speed ≠ sh.cur_speed then { sh with cur_speed := speed } else sh

/-- All instances and the class statics. -/
structure World where
  insts : Nat → Instance
  shared : Shared

/-- Apply a per-instance update to instance `i`. -/
def updInst (w : World) (i : Nat) (f : Instance → Instance) : World :=
  { w with insts := Function.update w.insts i (f (w.insts i)) }

/-- `SoftwareSerial::setTX` (lines 190-198). -/
def setTX (i : Instance) : Instance :=
  { i with txPinLevel := !i._inverse_logic, txPinOutput := true }

/-- `SoftwareSerial::setRX` (lines 200-204). -/
def setRX (i : Instance) : Instance :=
  if i._receivePin > 0 then { i with rxPinConfigured := true } else i

/-- `setRXTX(false)` (lines 206-224, the `input == false` arm as called by
`stopListening` and `write`): only acts on a half-duplex instance that is the
active receiver, forcing transmit direction via `setTX()` and clearing the
`active_in` pointer. -/
def setRXTXFalse (selfId : Nat) (w : World) : World :=
  if (w.insts selfId)._half_duplex then
    if w.shared.active_in = some selfId then
      let w1 := updInst w selfId setTX
      { w1 with shared := { w1.shared with active_in := none } }
    else w
  else w

/-- `SoftwareSerial::stopListening` (lines 174-187).  The
`while (active_out);` spin exits only once no transmission is active; the
state transformation below does not depend on `active_out`, so it is the
transformation performed whenever the spin terminates. -/
def stopListening (selfId : Nat) (w : World) : Bool × World :=
  if w.shared.active_listener = some selfId then
    let w1 := if (w.insts selfId)._half_duplex then setRXTXFalse selfId w else w
    let sh := { w1.shared with active_listener := none, active_in := none }
    let sh := setSpeed 0 sh
    (true, { w1 with shared := sh })
  else (false, w)

/-- `SoftwareSerial::listen` (lines 155-171): no-op returning false without a
valid receive pin; otherwise stop any previous listener, reset the shared
receive counters, set the speed, claim the listener pointer (and, unless
half-duplex, the receiver pointer) and return true. -/
def listen (selfId : Nat) (w : World) : Bool × World :=
  if (w.insts selfId)._receivePin ≥ 0 then
    let w1 := match w.shared.active_listener with
      | some j => (stopListening j w).2
      | none => w
    let sh := { w1.shared with
      rxe := { w1.shared.rxe with rx_tick_cnt := 1, rx_bit_cnt := -1 } }
    let sh := setSpeed (w1.insts selfId)._speed sh
    let sh := { sh with active_listener := some selfId }
    let sh := if !(w1.insts selfId)._half_duplex then
        { sh with active_in := some selfId }
      else sh
    (true, { w1 with shared := sh })
  else (false, w)

set_option linter.unusedVariables false in
/-- `SoftwareSerial::begin` (lines 342-367).  `FORCE_BAUD_RATE` is defined
(line 57), so the `#ifdef FORCE_BAUD_RATE` block replaces the requested
`speed` with 19200 before it is stored.  The one-time platform timer setup is
modelled by the `initialised` flag alone; then the pins are configured for
the duplex mode and `listen()` is called. -/
def begin (selfId : Nat) (speed : Nat) (w : World) : World :=
  let speed := FORCE_BAUD_RATE
  let w1 := updInst w selfId (fun i => { i with _speed := speed })
  let w2 := if !w1.shared.initialised then
      { w1 with shared := { w1.shared with initialised := true } }
    else w1
  let w3 := if !(w2.insts selfId)._half_duplex then
      updInst (updInst w2 selfId setTX) selfId setRX
    else updInst w2 selfId setTX
  (listen selfId w3).2

/-- `SoftwareSerial::flush` (lines 408-412) at the instance level: calling
`flush()` on instance `i`. -/
def flush (selfId : Nat) (w : World) : World :=
  updInst w selfId (fun i => { i with ring := flushRing i.ring })

/-- A concrete three-instance test world: instance 0 is full duplex on pins
(2, 3), instance 1 full duplex on pins (4, 5), every other id an instance
constructed with an invalid receive pin (−1).  Nothing is active and the
statics have their initializers (lines 96-106). -/
def testWorld : World :=
  { insts := fun i =>
      if i = 0 then
        mkInstance 2 3 false (List.replicate _SS_MAX_RX_BUFF 0) false false false
      else if i = 1 then
        mkInstance 4 5 false (List.replicate _SS_MAX_RX_BUFF 0) false false false
      else
        mkInstance (-1) 6 false (List.replicate _SS_MAX_RX_BUFF 0) false false false,
    shared := { initialised := false, active_listener := none, active_out := none,
                active_in := none, txe := ⟨0, 0, 0⟩, rxe := ⟨0, -1, 0⟩,
                cur_speed := 0 } }

theorem initRing_WF : WF initRing := by decide

theorem contents_length (s : RxRing) : (contents s).length = available s := by
  simp [contents]

theorem available_lt (s : RxRing) : available s < _SS_MAX_RX_BUFF := by
  exact Nat.mod_lt _ (by decide)

theorem rbPut_not_full_spec (s : RxRing) (b : Nat) (h1 : WF s)
    (h2 : available s + 1 < _SS_MAX_RX_BUFF) :
    contents (rbPut s b) = contents s ++ [b] ∧ WF (rbPut s b) ∧
      available (rbPut s b) = available s + 1 ∧
      (rbPut s b)._receive_buffer_head = s._receive_buffer_head ∧
      (rbPut s b)._buffer_overflow = s._buffer_overflow := by
  obtain ⟨hlen, hh, ht⟩ := h1
  have hne : (s._receive_buffer_tail + 1) % _SS_MAX_RX_BUFF ≠ s._receive_buffer_head := by
    unfold available _SS_MAX_RX_BUFF at *
    omega
  have havail : available (rbPut s b) = available s + 1 := by
    unfold rbPut
    rw [if_pos hne]
    unfold available _SS_MAX_RX_BUFF at *
    simp only
    omega
  refine ⟨?_, ?_, havail, ?_, ?_⟩
  · unfold contents
    rw [havail, List.range_succ, List.map_append]
    congr 1
    · apply List.map_congr_left
      intro i hi
      rw [List.mem_range] at hi
      have hidx : (s._receive_buffer_head + i) % _SS_MAX_RX_BUFF ≠
          s._receive_buffer_tail := by
        unfold available _SS_MAX_RX_BUFF at *
        omega
      unfold rbPut
      rw [if_pos hne]
      simp only
      rw [List.getD_eq_getElem?_getD, List.getD_eq_getElem?_getD,
        List.getElem?_set_ne (fun h => hidx h.symm)]
    · have hidx : (s._receive_buffer_head + available s) % _SS_MAX_RX_BUFF =
          s._receive_buffer_tail := by
        unfold available _SS_MAX_RX_BUFF at *
        omega
      unfold rbPut
      rw [if_pos hne]
      simp only [List.map_cons, List.map_nil, hidx]
      rw [List.getD_eq_getElem?_getD,
        List.getElem?_set_eq_of_lt b (by rw [hlen]; exact ht)]
      rfl
  · unfold rbPut WF
    rw [if_pos hne]
    simp only [List.length_set]
    exact ⟨hlen, hh, Nat.mod_lt _ (by decide)⟩
  · unfold rbPut
    rw [if_pos hne]
  · unfold rbPut
    rw [if_pos hne]

theorem read_nonempty_spec (s : RxRing) (h1 : WF s)
    (hne : s._receive_buffer_head ≠ s._receive_buffer_tail) :
    (read s).1 = (s._receive_buffer.getD s._receive_buffer_head 0 : Int) ∧
      WF (read s).2 ∧
      available (read s).2 + 1 = available s ∧
      contents s =
        s._receive_buffer.getD s._receive_buffer_head 0 :: contents (read s).2 ∧
      (read s).2._receive_buffer = s._receive_buffer ∧
      (read s).2._receive_buffer_tail = s._receive_buffer_tail ∧
      (read s).2._buffer_overflow = s._buffer_overflow := by
  obtain ⟨hlen, hh, ht⟩ := h1
  have havail : available s ≠ 0 := by
    unfold available _SS_MAX_RX_BUFF at *
    omega
  have havail2 : available (read s).2 + 1 = available s := by
    unfold read
    rw [if_neg hne]
    unfold available _SS_MAX_RX_BUFF at *
    simp only
    omega
  refine ⟨by unfold read; rw [if_neg hne], ?_, havail2, ?_, ?_, ?_, ?_⟩
  · unfold read WF
    rw [if_neg hne]
    exact ⟨hlen, Nat.mod_lt _ (by decide), ht⟩
  · unfold contents
    have hd : available s = available (read s).2 + 1 := havail2.symm
    rw [hd, List.range_succ_eq_map, List.map_cons, List.map_map]
    congr 1
    · rw [Nat.add_zero, Nat.mod_eq_of_lt hh]
    · apply List.map_congr_left
      intro i hi
      rw [List.mem_range] at hi
      have hbuf : (read s).2._receive_buffer = s._receive_buffer := by
        unfold read
        rw [if_neg hne]
      have hhd : (read s).2._receive_buffer_head =
          (s._receive_buffer_head + 1) % _SS_MAX_RX_BUFF := by
        unfold read
        rw [if_neg hne]
      rw [hbuf, hhd]
      have : (s._receive_buffer_head + Nat.succ i) % _SS_MAX_RX_BUFF =
          ((s._receive_buffer_head + 1) % _SS_MAX_RX_BUFF + i) % _SS_MAX_RX_BUFF := by
        unfold _SS_MAX_RX_BUFF
        omega
      rw [Function.comp_apply, this]
  · unfold read
    rw [if_neg hne]
  · unfold read
    rw [if_neg hne]
  · unfold read
    rw [if_neg hne]

theorem readAllGo_contents : ∀ (n : Nat) (s : RxRing), WF s → available s = n →
    readAllGo n s = (contents s).map Int.ofNat
  | 0, s, _, ha => by
    unfold readAllGo contents
    rw [ha]
    rfl
  | n + 1, s, h, ha => by
    have hne : s._receive_buffer_head ≠ s._receive_buffer_tail := by
      obtain ⟨hlen, hh, ht⟩ := h
      unfold available _SS_MAX_RX_BUFF at *
      omega
    obtain ⟨hv, hwf, hav, hc, _, _, _⟩ := read_nonempty_spec s h hne
    have hIH := readAllGo_contents n (read s).2 hwf (by omega)
    show (read s).1 :: readAllGo n (read s).2 = _
    rw [hc, hIH, hv, List.map_cons]
    rfl

theorem readAll_contents (s : RxRing) (h : WF s) :
    readAll s = (contents s).map Int.ofNat :=
  readAllGo_contents (available s) s h rfl

theorem foldl_rbPut_spec : ∀ (bs : List Nat) (s : RxRing), WF s →
    available s + bs.length < _SS_MAX_RX_BUFF →
    contents (bs.foldl rbPut s) = contents s ++ bs ∧ WF (bs.foldl rbPut s) ∧
      available (bs.foldl rbPut s) = available s + bs.length ∧
      (bs.foldl rbPut s)._buffer_overflow = s._buffer_overflow
  | [], s, h, _ => by
    simp [List.foldl, h]
  | b :: bs, s, h, hcap => by
    rw [List.length_cons] at hcap
    obtain ⟨hc1, hwf1, hav1, _, hov1⟩ := rbPut_not_full_spec s b h (by omega)
    obtain ⟨hc2, hwf2, hav2, hov2⟩ := foldl_rbPut_spec bs (rbPut s b) hwf1 (by omega)
    rw [List.foldl_cons]
    refine ⟨?_, hwf2, ?_, ?_⟩
    · rw [hc2, hc1, List.append_assoc, List.singleton_append]
    · rw [hav2, hav1, List.length_cons]
      omega
    · rw [hov2, hov1]

theorem recv_recvT (e : RxEngine) (inbit : Bool) (s : RxRing) :
    recv e inbit s =
      ((recvT e inbit).1, ((recvT e inbit).2).elim s (rbPut s)) := by
  unfold recv recvT
  split_ifs <;> rfl

theorem toEng_withRing (e : LoopEng) (r : RxRing) : toEng (withRing e r) = e := rfl

theorem withRing_toEng (s : Loopback) : withRing (toEng s) s.ring = s := rfl

theorem ring_withRing (e : LoopEng) (r : RxRing) : (withRing e r).ring = r := rfl

theorem send_withRing (e : LoopEng) (r : RxRing) :
    send (withRing e r) = withRing (sendE e) r := by
  obtain ⟨l, tx, rx, ao, ai, al, op, hd, inv, sp, cs⟩ := e
  simp only [send, sendE, withRing]
  split_ifs <;> rfl

theorem write_withRing (b : Nat) (e : LoopEng) (r : RxRing) :
    write b (withRing e r) = withRing (writeE b e) r := by
  obtain ⟨l, tx, rx, ao, ai, al, op, hd, inv, sp, cs⟩ := e
  simp only [write, writeE, setRXTXFalseL, withRing]
  split_ifs <;> rfl

theorem step_sim (s : Loopback) :
    handle_interrupt s =
      withRing (stepE (toEng s)).1
        (((stepE (toEng s)).2).elim s.ring (rbPut s.ring)) := by
  obtain ⟨l, tx, rx, ring, ao, ai, al, op, hd, inv, sp, cs⟩ := s
  simp only [handle_interrupt, stepE, recvL, toEng, recv_recvT]
  cases ai
  · simp only [Bool.false_eq_true, if_false, Option.elim]
    split_ifs
    · exact send_withRing ⟨l, tx, rx, ao, false, al, op, hd, inv, sp, cs⟩ ring
    · rfl
  · simp only [eq_self_iff_true, if_true]
    split_ifs
    · exact send_withRing ⟨l, tx, (recvT rx l).1, ao, true, al, op, hd, inv, sp, cs⟩
        ((recvT rx l).2.elim ring (rbPut ring))
    · rfl

theorem runE_succ (n : Nat) (s : LoopEng) :
    runE (n + 1) s =
      ((runE n (stepE s).1).1, (stepE s).2.toList ++ (runE n (stepE s).1).2) := rfl

theorem runE_add (m n : Nat) (s : LoopEng) :
    runE (m + n) s =
      ((runE n (runE m s).1).1, (runE m s).2 ++ (runE n (runE m s).1).2) := by
  induction m generalizing s with
  | zero => simp [runE]
  | succ k ih =>
    have h : k + 1 + n = (k + n) + 1 := by omega
    rw [h, runE_succ, runE_succ, ih]
    simp [List.append_assoc]

theorem run_sim (n : Nat) (s : Loopback) :
    runL n s =
      withRing (runE n (toEng s)).1
        (((runE n (toEng s)).2).foldl rbPut s.ring) := by
  induction n generalizing s with
  | zero => exact (withRing_toEng s).symm
  | succ k ih =>
    show runL k (handle_interrupt s) = _
    rw [ih, step_sim s, runE_succ]
    simp only [toEng_withRing, ring_withRing, List.foldl_append]
    congr 2
    cases hop : (stepE (toEng s)).2 <;> simp [hop, Option.elim]

theorem framed_word_bits : ∀ b : Fin 256,
    ((b.val <<< 1 ||| 0x200) &&& 1) = 0 ∧
      (b.val <<< 1 ||| 0x200) >>> 1 = b.val + 256 := by decide

theorem frame_start (b : Nat) (hb : b < 256) (t : TxEngine) (r : Nat) :
    runE 4 (writeE b (idleEng t r)) = (midFrameEng b, []) := by
  have h1 := (framed_word_bits ⟨b, hb⟩).1
  have h2 := (framed_word_bits ⟨b, hb⟩).2
  simp [runE, stepE, writeE, idleEng, recvT, sendE, midFrameEng, OVERSAMPLE,
    setSpeedVal, h1, h2]

set_option maxRecDepth 100000 in
set_option maxHeartbeats 4000000 in
theorem frame_mid : ∀ b : Fin 256,
    runE 44 (midFrameEng b.val) = (idleEng ⟨1, 26, 0⟩ b.val, [b.val]) := by
  decide

theorem frame_engine (b : Nat) (hb : b < 256) (t : TxEngine) (r : Nat) :
    runE FRAME_TICKS (writeE b (idleEng t r)) =
      (idleEng ⟨1, 26, 0⟩ b, [b]) := by
  have h48 : FRAME_TICKS = 4 + 44 := rfl
  rw [h48, runE_add, frame_start b hb t r, frame_mid ⟨b, hb⟩]
  rfl

theorem frame_loopback (b : Nat) (hb : b < 256) (t : TxEngine) (r : Nat)
    (ring : RxRing) :
    runL FRAME_TICKS (write b (withRing (idleEng t r) ring)) =
      withRing (idleEng ⟨1, 26, 0⟩ b) (rbPut ring b) := by
  rw [write_withRing, run_sim, toEng_withRing, ring_withRing,
    frame_engine b hb t r]
  rfl

theorem writeFrames_nil (s : Loopback) : writeFrames [] s = s := rfl

theorem writeFrames_cons (b : Nat) (bs : List Nat) (s : Loopback) :
    writeFrames (b :: bs) s = writeFrames bs (runL FRAME_TICKS (write b s)) := rfl

theorem writeFrames_loopback : ∀ (bs : List Nat) (t : TxEngine) (r : Nat)
    (ring : RxRing), (∀ x ∈ bs, x < 256) →
    writeFrames bs (withRing (idleEng t r) ring) =
      withRing (idleEng (if bs.isEmpty then t else ⟨1, 26, 0⟩) (bs.getLastD r))
        (bs.foldl rbPut ring)
  | [], t, r, ring, _ => by
    rw [writeFrames_nil]
    simp only [List.isEmpty_nil, if_true, List.getLastD_nil, List.foldl_nil]
  | b :: bs, t, r, ring, h => by
    have hb : b < 256 := h b (List.mem_cons_self b bs)
    have hrest : ∀ x ∈ bs, x < 256 := fun x hx => h x (List.mem_cons_of_mem b hx)
    rw [writeFrames_cons, frame_loopback b hb t r ring,
      writeFrames_loopback bs ⟨1, 26, 0⟩ b (rbPut ring b) hrest]
    simp only [List.isEmpty_cons, List.getLastD_cons, List.foldl_cons,
      Bool.false_eq_true, if_false, ite_self]

theorem read_overflow (s : RxRing) (o : Bool) :
    read { s with _buffer_overflow := o } =
      ((read s).1, { (read s).2 with _buffer_overflow := o }) := by
  unfold read
  split_ifs <;> rfl

theorem readAllGo_overflow : ∀ (n : Nat) (s : RxRing) (o : Bool),
    readAllGo n { s with _buffer_overflow := o } = readAllGo n s
  | 0, _, _ => rfl
  | n + 1, s, o => by
    show (read { s with _buffer_overflow := o }).1 ::
        readAllGo n (read { s with _buffer_overflow := o }).2 = _
    rw [read_overflow]
    show (read s).1 :: readAllGo n { (read s).2 with _buffer_overflow := o } = _
    rw [readAllGo_overflow n (read s).2 o]
    rfl

theorem readAll_overflow (s : RxRing) (o : Bool) :
    readAll { s with _buffer_overflow := o } = readAll s := by
  unfold readAll
  have h : available { s with _buffer_overflow := o } = available s := rfl
  rw [h, readAllGo_overflow]

/-- Claim C1: for every sequence of bytes written on the idle, correctly wired
loopback instance at the (forced) fixed baud rate, applying each frame's tick
budget of timer ticks to `send()`/`recv()` after each `write()` makes
`read()` return exactly the written bytes in order (FIFO, no loss), and the
overflow flag stays clear, as long as the ring buffer does not overflow
(at most capacity − 1 bytes buffered). -/
theorem C1_loopback_roundtrip (bs : List Nat) (h256 : ∀ x ∈ bs, x < 256)
    (hcap : bs.length < _SS_MAX_RX_BUFF) :
    readAll (writeFrames bs initLoopback).ring = bs.map Int.ofNat ∧
      (writeFrames bs initLoopback).ring._buffer_overflow = false := by
  have hinit : initLoopback = withRing (idleEng ⟨0, 0, 0⟩ 0) initRing := rfl
  rw [hinit, writeFrames_loopback bs ⟨0, 0, 0⟩ 0 initRing h256, ring_withRing]
  have hava : available initRing = 0 := rfl
  obtain ⟨hc, hwf, _, hov⟩ :=
    foldl_rbPut_spec bs initRing initRing_WF (by rw [hava]; omega)
  constructor
  · rw [readAll_contents _ hwf, hc]
    have hcemp : contents initRing = [] := rfl
    rw [hcemp, List.nil_append]
  · rw [hov]
    rfl

theorem C1_loopback_roundtrip_witness :
    ((∀ x ∈ ([5, 200, 0] : List Nat), x < 256) ∧
        ([5, 200, 0] : List Nat).length < _SS_MAX_RX_BUFF) ∧
      readAll (writeFrames [5, 200, 0] initLoopback).ring =
        ([5, 200, 0] : List Nat).map Int.ofNat :=
  ⟨⟨by decide, by decide⟩,
    (C1_loopback_roundtrip [5, 200, 0] (by decide) (by decide)).1⟩

/-- Claim C2 counterexample: the claim says the assembled byte is committed to the
ring buffer regardless of the sampled stop-bit level; but at the concrete
stop-bit-phase state below with a low stop bit, `recv` commits nothing: the
ring is returned unchanged and nothing becomes available. -/
theorem C2_framing_counterexample :
    (recv ⟨1, 8, 171⟩ false initRing).2 = initRing ∧
      available (recv ⟨1, 8, 171⟩ false initRing).2 = 0 :=
  ⟨rfl, rfl⟩

/-- Claim C2 (amended): when the receive state machine reaches the stop-bit phase
(`rx_bit_cnt ≥ 8`) and the tick countdown fires, the assembled byte is
committed (via the ring-buffer put) only when the sampled stop-bit level is
high; with a malformed (low) stop bit the byte is silently discarded.  In
both cases the engine resets to idle (`rx_tick_cnt = 1`, `rx_bit_cnt = -1`). -/
theorem C2_framing_amended (e : RxEngine) (s : RxRing)
    (htick : e.rx_tick_cnt ≤ 1) (hbit : e.rx_bit_cnt ≥ 8) :
    recv e true s = (⟨1, -1, e.rx_buffer⟩, rbPut s e.rx_buffer) ∧
      recv e false s = (⟨1, -1, e.rx_buffer⟩, s) := by
  have h1 : e.rx_tick_cnt - 1 ≤ 0 := by omega
  have h2 : ¬ e.rx_bit_cnt = -1 := by omega
  constructor <;>
    (unfold recv; rw [if_pos h1, if_neg h2, if_pos hbit]; rfl)

theorem C2_framing_amended_witness :
    recv ⟨1, 9, 66⟩ true initRing = (⟨1, -1, 66⟩, rbPut initRing 66) ∧
      recv ⟨1, 9, 66⟩ false initRing = (⟨1, -1, 66⟩, initRing) :=
  C2_framing_amended ⟨1, 9, 66⟩ initRing (by decide) (by decide)

/-- Claim C3: when the receive engine completes a byte (stop-bit phase, high stop
bit) and the ring is full (incremented tail equals head), the byte is
dropped: no index and no stored byte changes, only the sticky overflow flag
is set; `available()` and `read()` (hence the whole drain) are unaffected. -/
theorem C3_overflow_drop (e : RxEngine) (s : RxRing)
    (htick : e.rx_tick_cnt ≤ 1) (hbit : e.rx_bit_cnt ≥ 8)
    (hfull : (s._receive_buffer_tail + 1) % _SS_MAX_RX_BUFF =
      s._receive_buffer_head) :
    recv e true s = (⟨1, -1, e.rx_buffer⟩, { s with _buffer_overflow := true }) ∧
      available { s with _buffer_overflow := true } = available s ∧
      readAll { s with _buffer_overflow := true } = readAll s := by
  refine ⟨?_, rfl, readAll_overflow s true⟩
  have h1 : e.rx_tick_cnt - 1 ≤ 0 := by omega
  have h2 : ¬ e.rx_bit_cnt = -1 := by omega
  unfold recv
  rw [if_pos h1, if_neg h2, if_pos hbit]
  unfold rbPut
  rw [if_neg (not_not_intro hfull)]
  rfl

theorem C3_overflow_drop_witness :
    recv ⟨1, 8, 7⟩ true
        ⟨List.replicate _SS_MAX_RX_BUFF 9, 0, _SS_MAX_RX_BUFF - 1, false⟩ =
      (⟨1, -1, 7⟩,
        { (⟨List.replicate _SS_MAX_RX_BUFF 9, 0, _SS_MAX_RX_BUFF - 1, false⟩ :
            RxRing) with _buffer_overflow := true }) ∧
      available { (⟨List.replicate _SS_MAX_RX_BUFF 9, 0, _SS_MAX_RX_BUFF - 1,
          false⟩ : RxRing) with _buffer_overflow := true } =
        available ⟨List.replicate _SS_MAX_RX_BUFF 9, 0, _SS_MAX_RX_BUFF - 1, false⟩ :=
  ⟨(C3_overflow_drop ⟨1, 8, 7⟩ _ (by decide) (by decide) (by decide)).1,
    (C3_overflow_drop ⟨1, 8, 7⟩ _ (by decide) (by decide) (by decide)).2.1⟩

/-- Claim C6: `available()` computes `(tail + capacity - head) % capacity` (the
spec's `(tail - head + capacity) mod capacity` over the in-range indices),
and this is exactly the number of unread bytes: the number of values a full
drain by repeated `read()` returns. -/
theorem C6_available_counts (s : RxRing) (h : WF s) :
    available s =
      (s._receive_buffer_tail + _SS_MAX_RX_BUFF - s._receive_buffer_head) %
        _SS_MAX_RX_BUFF ∧
      (readAll s).length = available s := by
  refine ⟨rfl, ?_⟩
  rw [readAll_contents s h, List.length_map, contents_length]

theorem C6_available_counts_witness :
    WF ⟨List.replicate _SS_MAX_RX_BUFF 3, 5, 2, false⟩ ∧
      available ⟨List.replicate _SS_MAX_RX_BUFF 3, 5, 2, false⟩ =
        (2 + _SS_MAX_RX_BUFF - 5) % _SS_MAX_RX_BUFF ∧
      (readAll ⟨List.replicate _SS_MAX_RX_BUFF 3, 5, 2, false⟩).length =
        available ⟨List.replicate _SS_MAX_RX_BUFF 3, 5, 2, false⟩ :=
  ⟨by decide,
    (C6_available_counts ⟨List.replicate _SS_MAX_RX_BUFF 3, 5, 2, false⟩
      (by decide)).1,
    (C6_available_counts ⟨List.replicate _SS_MAX_RX_BUFF 3, 5, 2, false⟩
      (by decide)).2⟩

/-- Claim C7: `read()` on an empty buffer (`head == tail`) returns −1 and leaves the
state unchanged, and `peek()` returns −1 too; on a nonempty buffer both
return the byte stored at `head` — a value in 0..255, distinguishable from −1
— and `read()` advances `head` by one modulo the capacity while `peek()`
(which returns a value without touching any state) leaves the subsequent
`read()` result unchanged. -/
theorem C7_read_peek (s : RxRing) (hWF : WF s)
    (h256 : ∀ x ∈ s._receive_buffer, x < 256) :
    (s._receive_buffer_head = s._receive_buffer_tail →
      read s = (-1, s) ∧ peek s = -1) ∧
    (s._receive_buffer_head ≠ s._receive_buffer_tail →
      peek s = (read s).1 ∧
      0 ≤ (read s).1 ∧ (read s).1 ≤ 255 ∧ (read s).1 ≠ -1 ∧
      (read s).2._receive_buffer_head =
        (s._receive_buffer_head + 1) % _SS_MAX_RX_BUFF ∧
      (read s).2._receive_buffer = s._receive_buffer ∧
      (read s).2._receive_buffer_tail = s._receive_buffer_tail) := by
  obtain ⟨hlen, hh, ht⟩ := hWF
  constructor
  · intro h
    unfold read peek
    rw [if_pos h, if_pos h]
    exact ⟨rfl, rfl⟩
  · intro h
    have hlt : s._receive_buffer_head < s._receive_buffer.length := by
      rw [hlen]; exact hh
    have hmem : s._receive_buffer.getD s._receive_buffer_head 0 ∈
        s._receive_buffer := by
      rw [List.getD_eq_getElem?_getD, List.getElem?_eq_getElem hlt]
      exact List.getElem_mem hlt
    have hval := h256 _ hmem
    obtain ⟨hv, _, _, _, hbuf, htail, _⟩ :=
      read_nonempty_spec s ⟨hlen, hh, ht⟩ h
    refine ⟨?_, ?_, ?_, ?_, ?_, hbuf, htail⟩
    · unfold peek
      rw [if_neg h, hv]
    · rw [hv]; omega
    · rw [hv]; omega
    · rw [hv]; omega
    · unfold read
      rw [if_neg h]

theorem C7_read_peek_witness :
    (read ⟨List.replicate _SS_MAX_RX_BUFF 3, 2, 2, false⟩ =
        (-1, ⟨List.replicate _SS_MAX_RX_BUFF 3, 2, 2, false⟩) ∧
      peek ⟨List.replicate _SS_MAX_RX_BUFF 3, 2, 2, false⟩ = -1) ∧
      (peek ⟨List.replicate _SS_MAX_RX_BUFF 3, 2, 5, false⟩ =
          (read ⟨List.replicate _SS_MAX_RX_BUFF 3, 2, 5, false⟩).1 ∧
        (read ⟨List.replicate _SS_MAX_RX_BUFF 3, 2, 5, false⟩).2._receive_buffer_head =
          (2 + 1) % _SS_MAX_RX_BUFF) :=
  ⟨(C7_read_peek ⟨List.replicate _SS_MAX_RX_BUFF 3, 2, 2, false⟩ (by decide)
      (by decide)).1 rfl,
    ⟨((C7_read_peek ⟨List.replicate _SS_MAX_RX_BUFF 3, 2, 5, false⟩ (by decide)
        (by decide)).2 (by decide)).1,
      ((C7_read_peek ⟨List.replicate _SS_MAX_RX_BUFF 3, 2, 5, false⟩ (by decide)
        (by decide)).2 (by decide)).2.2.2.2.1⟩⟩

/-- Claim C10: the ring indices always stay in `[0, capacity)`: the constructor
establishes `head = tail = 0`, and `read()`, `flush()` and the interrupt-path
receive commit (`recv`, hence `rbPut`) each preserve the bounds, advancing
modulo the capacity or resetting to 0. -/
theorem C10_index_bounds (s : RxRing) (b : Nat)
    (h : s._receive_buffer_head < _SS_MAX_RX_BUFF ∧
      s._receive_buffer_tail < _SS_MAX_RX_BUFF) :
    (∀ (rx tx : Int) (inv : Bool) (buf : List Nat) (po pl rc : Bool),
      (mkInstance rx tx inv buf po pl rc).ring._receive_buffer_head = 0 ∧
        (mkInstance rx tx inv buf po pl rc).ring._receive_buffer_tail = 0) ∧
    ((read s).2._receive_buffer_head < _SS_MAX_RX_BUFF ∧
      (read s).2._receive_buffer_tail < _SS_MAX_RX_BUFF) ∧
    ((flushRing s)._receive_buffer_head < _SS_MAX_RX_BUFF ∧
      (flushRing s)._receive_buffer_tail < _SS_MAX_RX_BUFF) ∧
    ((rbPut s b)._receive_buffer_head < _SS_MAX_RX_BUFF ∧
      (rbPut s b)._receive_buffer_tail < _SS_MAX_RX_BUFF) ∧
    (∀ (e : RxEngine) (inbit : Bool),
      (recv e inbit s).2._receive_buffer_head < _SS_MAX_RX_BUFF ∧
        (recv e inbit s).2._receive_buffer_tail < _SS_MAX_RX_BUFF) := by
  obtain ⟨hh, ht⟩ := h
  have hput : ∀ x : Nat, (rbPut s x)._receive_buffer_head < _SS_MAX_RX_BUFF ∧
      (rbPut s x)._receive_buffer_tail < _SS_MAX_RX_BUFF := by
    intro x
    simp only [rbPut]
    split_ifs with hc
    · exact ⟨hh, Nat.mod_lt _ (by decide)⟩
    · exact ⟨hh, ht⟩
  refine ⟨fun _ _ _ _ _ _ _ => ⟨rfl, rfl⟩, ?_,
    ⟨show (0 : Nat) < _SS_MAX_RX_BUFF by decide,
      show (0 : Nat) < _SS_MAX_RX_BUFF by decide⟩, hput b, ?_⟩
  · unfold read
    split_ifs with hc
    · exact ⟨hh, ht⟩
    · exact ⟨Nat.mod_lt _ (by decide), ht⟩
  · intro e inbit
    simp only [recv]
    split_ifs <;> first
      | exact ⟨hh, ht⟩
      | exact hput _

theorem C10_index_bounds_witness :
    ((⟨List.replicate _SS_MAX_RX_BUFF 0, 63, 63, false⟩ :
        RxRing)._receive_buffer_head < _SS_MAX_RX_BUFF ∧
      (⟨List.replicate _SS_MAX_RX_BUFF 0, 63, 63, false⟩ :
        RxRing)._receive_buffer_tail < _SS_MAX_RX_BUFF) ∧
      ((read ⟨List.replicate _SS_MAX_RX_BUFF 0, 63, 63, false⟩).2._receive_buffer_head <
          _SS_MAX_RX_BUFF ∧
        (read ⟨List.replicate _SS_MAX_RX_BUFF 0, 63, 63, false⟩).2._receive_buffer_tail <
          _SS_MAX_RX_BUFF) ∧
      ((rbPut ⟨List.replicate _SS_MAX_RX_BUFF 0, 63, 63, false⟩ 9)._receive_buffer_head <
          _SS_MAX_RX_BUFF ∧
        (rbPut ⟨List.replicate _SS_MAX_RX_BUFF 0, 63, 63, false⟩ 9)._receive_buffer_tail <
          _SS_MAX_RX_BUFF) :=
  ⟨⟨by decide, by decide⟩,
    (C10_index_bounds ⟨List.replicate _SS_MAX_RX_BUFF 0, 63, 63, false⟩ 9
      ⟨by decide, by decide⟩).2.1,
    (C10_index_bounds ⟨List.replicate _SS_MAX_RX_BUFF 0, 63, 63, false⟩ 9
      ⟨by decide, by decide⟩).2.2.2.1⟩

theorem updInst_insts (w : World) (i k : Nat) (f : Instance → Instance) :
    (updInst w i f).insts k = if k = i then f (w.insts i) else w.insts k :=
  Function.update_apply w.insts i (f (w.insts i)) k

theorem setTX_speed (x : Instance) : (setTX x)._speed = x._speed := rfl

theorem setTX_rxpin (x : Instance) : (setTX x)._receivePin = x._receivePin := rfl

theorem setRX_speed (x : Instance) : (setRX x)._speed = x._speed := by
  unfold setRX; split_ifs <;> rfl

theorem setRX_rxpin (x : Instance) : (setRX x)._receivePin = x._receivePin := by
  unfold setRX; split_ifs <;> rfl

theorem stopListening_insts_pres {α : Type} (j k : Nat) (w : World)
    (p : Instance → α) (hTX : ∀ x, p (setTX x) = p x) :
    p (((stopListening j w).2).insts k) = p (w.insts k) := by
  unfold stopListening setRXTXFalse
  split_ifs <;> try rfl
  show p ((updInst w j setTX).insts k) = p (w.insts k)
  rw [updInst_insts]
  split_ifs with hk
  · subst hk; exact hTX _
  · rfl

theorem listen_insts_pres {α : Type} (i k : Nat) (w : World)
    (p : Instance → α) (hTX : ∀ x, p (setTX x) = p x) :
    p (((listen i w).2).insts k) = p (w.insts k) := by
  unfold listen
  split_ifs
  · cases hL : w.shared.active_listener with
    | none => rfl
    | some j => exact stopListening_insts_pres j k w p hTX
  · rfl

theorem listen_speed (i k : Nat) (w : World) :
    (((listen i w).2).insts k)._speed = (w.insts k)._speed :=
  listen_insts_pres i k w (fun x => x._speed) (fun _ => rfl)

theorem listen_true (i : Nat) (w : World) (h : (w.insts i)._receivePin ≥ 0) :
    (listen i w).1 = true ∧
      ((listen i w).2).shared.active_listener = some i := by
  unfold listen
  rw [if_pos h]
  dsimp only
  cases hL : w.shared.active_listener <;> split_ifs <;> exact ⟨rfl, rfl⟩

/-- Claim C4 counterexample: the claim says the stored speed equals the requested
rate after `begin(rate)`; but `begin(9600)` on the test world stores a speed
different from 9600 (namely the forced `FORCE_BAUD_RATE` = 19200). -/
theorem C4_begin_counterexample :
    ((begin 0 9600 testWorld).insts 0)._speed ≠ 9600 := by decide

/-- Claim C4 (amended): for every requested rate, `begin(rate)` stores
`FORCE_BAUD_RATE` (19200) — not the requested rate, which is discarded by the
active `#ifdef FORCE_BAUD_RATE` block — and calls `listen()`, so an instance
with a valid receive pin becomes the active listener. -/
theorem C4_begin_forced (i rate : Nat) (w : World)
    (hpin : (w.insts i)._receivePin ≥ 0) :
    ((begin i rate w).insts i)._speed = FORCE_BAUD_RATE ∧
      (begin i rate w).shared.active_listener = some i := by
  simp only [begin]
  constructor
  · rw [listen_speed]
    split_ifs <;>
      simp [updInst_insts, setRX_speed, setTX_speed]
  · apply (listen_true i _ ?_).2
    split_ifs <;>
      simp [updInst_insts, setRX_rxpin, setTX_rxpin, hpin]

theorem C4_begin_forced_witness :
    ((testWorld.insts 0)._receivePin ≥ 0) ∧
      ((begin 0 2400 testWorld).insts 0)._speed = FORCE_BAUD_RATE ∧
      (begin 0 2400 testWorld).shared.active_listener = some 0 :=
  ⟨by decide, C4_begin_forced 0 2400 testWorld (by decide)⟩

/-- Claim C5 counterexample: the claim says `listen()` with a valid receive pin
returns true exactly when it replaced a different previous listener (false
when there was none); but on the test world, where no instance is listening,
`listen()` still returns true. -/
theorem C5_listen_counterexample :
    testWorld.shared.active_listener = none ∧ (listen 0 testWorld).1 = true :=
  ⟨rfl, by decide⟩

/-- Claim C5 (amended): `listen()` on an instance with no valid receive pin is a
no-op returning false and changing nothing; on an instance with a valid
receive pin it always returns true and installs the caller as active
listener, whether or not a different previous listener was replaced. -/
theorem C5_listen_returns (i : Nat) (w : World) :
    ((w.insts i)._receivePin < 0 → listen i w = (false, w)) ∧
      ((w.insts i)._receivePin ≥ 0 → (listen i w).1 = true ∧
        ((listen i w).2).shared.active_listener = some i) := by
  constructor
  · intro h
    unfold listen
    rw [if_neg (by omega)]
  · intro h
    exact listen_true i w h

theorem C5_listen_returns_witness :
    (listen 2 testWorld = (false, testWorld)) ∧
      ((listen 0 testWorld).1 = true ∧
        ((listen 0 testWorld).2).shared.active_listener = some 0) :=
  ⟨(C5_listen_returns 2 testWorld).1 (by decide),
    (C5_listen_returns 0 testWorld).2 (by decide)⟩

/-- Claim C9: `stopListening()` acts only when the caller is the active listener:
it then clears the active-listener and active-receiver pointers, sets the
shared speed to 0 (disabling the tick source) and returns true; otherwise it
returns false and the whole world is unchanged. -/
theorem C9_stopListening_gate (i : Nat) (w : World) :
    (w.shared.active_listener = some i →
      (stopListening i w).1 = true ∧
        ((stopListening i w).2).shared.active_listener = none ∧
        ((stopListening i w).2).shared.active_in = none ∧
        ((stopListening i w).2).shared.cur_speed = 0) ∧
    (w.shared.active_listener ≠ some i → stopListening i w = (false, w)) := by
  constructor
  · intro h
    unfold stopListening
    rw [if_pos h]
    dsimp only
    refine ⟨rfl, ?_, ?_, ?_⟩ <;>
      (unfold setSpeed; split_ifs <;> first | rfl | omega)
  · intro h
    unfold stopListening
    rw [if_neg h]

theorem C9_stopListening_gate_witness :
    (((listen 0 testWorld).2).shared.active_listener = some 0 ∧
      (stopListening 0 (listen 0 testWorld).2).1 = true ∧
      ((stopListening 0 (listen 0 testWorld).2).2).shared.cur_speed = 0) ∧
      stopListening 1 testWorld = (false, testWorld) :=
  ⟨⟨by decide,
    ((C9_stopListening_gate 0 (listen 0 testWorld).2).1 (by decide)).1,
    ((C9_stopListening_gate 0 (listen 0 testWorld).2).1 (by decide)).2.2.2⟩,
    (C9_stopListening_gate 1 testWorld).2 (by decide)⟩

/-- Claim C8: `flush()` on instance `i` resets that instance's ring to
`head = tail = 0` (discarding unread bytes, so `available()` is 0 and
`read()`/`peek()` return −1 immediately afterwards) and changes nothing else:
the shared arbitration state is untouched, every other instance is untouched,
and of the instance itself only the two ring indices change (the stored
bytes, the sticky overflow flag, speed, pins and flags are preserved by the
record update through `flushRing`). -/
theorem C8_flush_clears (i : Nat) (w : World) :
    (flush i w).shared = w.shared ∧
      (flush i w).insts i = { w.insts i with ring := flushRing (w.insts i).ring } ∧
      (∀ k, k ≠ i → (flush i w).insts k = w.insts k) ∧
      available (flushRing (w.insts i).ring) = 0 ∧
      read (flushRing (w.insts i).ring) = (-1, flushRing (w.insts i).ring) ∧
      peek (flushRing (w.insts i).ring) = -1 ∧
      (flushRing (w.insts i).ring)._buffer_overflow =
        (w.insts i).ring._buffer_overflow ∧
      (flushRing (w.insts i).ring)._receive_buffer =
        (w.insts i).ring._receive_buffer := by
  refine ⟨rfl, ?_, ?_, by simp [available, flushRing, _SS_MAX_RX_BUFF],
    by simp [read, flushRing], by simp [peek, flushRing], rfl, rfl⟩
  · unfold flush updInst
    exact Function.update_same ..
  · intro k hk
    unfold flush updInst
    exact Function.update_noteq hk _ _

theorem C8_flush_clears_witness :
    (flush 0 testWorld).shared = testWorld.shared ∧
      available (flushRing ((testWorld.insts 0)).ring) = 0 ∧
      (flush 0 testWorld).insts 1 = testWorld.insts 1 :=
  ⟨(C8_flush_clears 0 testWorld).1,
    (C8_flush_clears 0 testWorld).2.2.2.1,
    (C8_flush_clears 0 testWorld).2.2.1 1 (by decide)⟩

end SoftwareSerial
